import Mathlib

/-!
# Verification of the mimc-abc anonymous-credential library

Shallow embedding of the `mimc-abc` Rust crate (Mercurial-style credentials
over a bilinear group).  The bilinear-group instance is modelled in
discrete-log representation: the scalar field is an arbitrary commutative
ring `F` with decidable equality, an element of `G1`, `G2` or `GT` is
represented by its discrete logarithm (an element of `F`) with respect to a
fixed generator of the respective prime-order cyclic group, the group
operation becomes `+`, scalar multiplication becomes `*`, point negation
becomes ring negation, and the pairing `e : G1 × G2 → GT` becomes ring
multiplication of the two logarithms.  For the prime-order groups the crate
is instantiated with (BLS12-381), equality of group elements is exactly
equality of discrete logarithms, so this representation is faithful.

Rust functions that can panic (`assert!`, `panic!`, vector indexing) are
embedded as `Option`-valued functions, `none` standing for the panic.
Fallible functions returning `Result` are embedded with `Except`.
Randomness is made explicit: every random draw of the Rust code becomes an
argument of the embedded function.
-/

namespace Mimc

variable {F : Type} [CommRing F] [DecidableEq F]

/-- Multi-scalar multiplication in discrete-log form: `msm_unchecked` zips
the point list with the scalar list (truncating to the shorter one) and sums
the scalar multiples. -/
def msm (points : List F) (scalars : List F) : F :=
  (List.zipWith (fun p s => p * s) points scalars).sum

/-- The pairing `e : G1 × G2 → GT` in discrete-log form: the logarithm of
`e(a·P1, b·P2)` with respect to `e(P1, P2)` is `a·b`. -/
def pairing (a b : F) : F := a * b

/-- `PublicParams` from `public_params.rs`: width `n`, generators `g`, `g̃`,
derived bases `ck`, `ck_tilde` and the secret exponents `y_values`. -/
structure PublicParams (F : Type) where
  n : Nat
  g : F
  g_tilde : F
  ck : List F
  ck_tilde : List F
  y_values : List F
  deriving DecidableEq

namespace PublicParams

/-- `PublicParams::new`: the sampled generators and exponents are explicit
arguments; `ck_i = g·y_i`, `ck̃_i = g̃·y_i`, `n` is the number of exponents. -/
def new (g g_tilde : F) (ys : List F) : PublicParams F :=
  { n := ys.length
    g := g
    g_tilde := g_tilde
    ck := ys.map (fun yi => g * yi)
    ck_tilde := ys.map (fun yi => g_tilde * yi)
    y_values := ys }

/-- `get_g1_bases`: the bases `(ck_1, …, ck_n, g)`. -/
def get_g1_bases (pp : PublicParams F) : List F :=
  pp.ck ++ [pp.g]

end PublicParams

/-- `Commitment` from `commitment.rs`: the dual-group pair `(cm, cm̃)`. -/
structure Commitment (F : Type) where
  cm : F
  cm_tilde : F
  deriving DecidableEq

/-- `Commitment::randomize`: `(cm + δ·g, cm̃ + δ·g̃)`. -/
def Commitment.randomize (c : Commitment F) (pp : PublicParams F)
    (delta_r : F) : Commitment F :=
  { cm := c.cm + pp.g * delta_r
    cm_tilde := c.cm_tilde + pp.g_tilde * delta_r }

/-- `CommitmentKey` from `commitment.rs`. -/
structure CommitmentKey (F : Type) where
  ck : List F
  ck_tilde : List F
  deriving DecidableEq

/-- `CommitmentKey::commit`: `cm = MSM(ck, m) + r·g` and the symmetric
`G2` value. -/
def CommitmentKey.commit (ckey : CommitmentKey F) (pp : PublicParams F)
    (messages : List F) (r : F) : Commitment F :=
  { cm := msm ckey.ck messages + pp.g * r
    cm_tilde := msm ckey.ck_tilde messages + pp.g_tilde * r }

/-- `Signature` from `signature.rs`. -/
structure Signature (F : Type) where
  sigma1 : F
  sigma2 : F
  deriving DecidableEq

/-- `Signature::randomize`: `σ1' = δu·σ1`,
`σ2' = MSM([σ1, σ2], [δr·δu, δu])`. -/
def Signature.randomize (s : Signature F) (delta_r delta_u : F) :
    Signature F :=
  { sigma1 := s.sigma1 * delta_u
    sigma2 := msm [s.sigma1, s.sigma2] [delta_r * delta_u, delta_u] }

/-- `SecretKey` from `signature.rs`. -/
structure SecretKey (F : Type) where
  sk : F
  x : F
  deriving DecidableEq

/-- `SecretKey::sign`: the fresh scalar `u` is an explicit argument;
`σ1 = u·g`, `σ2 = u·(cm + sk)`. -/
def SecretKey.sign (skey : SecretKey F) (c : Commitment F)
    (pp : PublicParams F) (u : F) : Signature F :=
  { sigma1 := pp.g * u
    sigma2 := (c.cm + skey.sk) * u }

/-- `VerificationKey` from `signature.rs`. -/
structure VerificationKey (F : Type) where
  vk_tilde : F
  deriving DecidableEq

/-- `VerificationKey::verify`: both pairing equations are enforced with
`assert!`, so a failing equation panics (`none`) instead of returning
`false`; when both asserts pass the function returns `true`. -/
def VerificationKey.verify (vk : VerificationKey F) (s : Signature F)
    (c : Commitment F) (pp : PublicParams F) : Option Bool :=
  if pairing s.sigma2 pp.g_tilde = pairing s.sigma1 (vk.vk_tilde + c.cm_tilde) then
    if pairing c.cm pp.g_tilde = pairing pp.g c.cm_tilde then
      some true
    else
      none
  else
    none

/-- Modelled from the spec: `PairingCheck` (`src/pairing.rs` is not part of
the source snapshot; only its callers are).  Per §4.6 it accumulates pairs
`(A_k, B̃_k)` and a running `GT` target defaulting to the identity, and
`verify` holds iff `Π e(A_k, B̃_k) = target`; in discrete-log form the
target group is written additively, so the product of pairings becomes the
sum of products of logarithms and the `GT` identity becomes `0`. -/
structure PairingCheck (F : Type) where
  pairs : List (F × F)
  target : F

namespace PairingCheck

/-- Modelled from the spec: `PairingCheck::new` — empty pair list, target
the `GT` identity. -/
def new : PairingCheck F := { pairs := [], target := 0 }

/-- Modelled from the spec: `merge` concatenates the pair lists and
multiplies (in log form: adds) the targets. -/
def merge (pc other : PairingCheck F) : PairingCheck F :=
  { pairs := pc.pairs ++ other.pairs, target := pc.target + other.target }

/-- Modelled from the spec: `verify` returns true iff the multi-pairing
equals the target. -/
def verify (pc : PairingCheck F) : Bool :=
  decide ((pc.pairs.map (fun p => pairing p.1 p.2)).sum = pc.target)

end PairingCheck

/-- Modelled from the spec: `create_check(pairs, None)` — target defaults
to the `GT` identity. -/
def create_check (pairs : List (F × F)) : PairingCheck F :=
  { pairs := pairs, target := 0 }

/-- `VerificationKey::verify_with_pairing_checker`: folds the signature
equation `e(σ2, g̃)·e(-σ1, vk̃+cm̃) = 1` and the consistency equation
`e(cm, g̃)·e(-g, cm̃) = 1` into one accumulator and verifies it. -/
def VerificationKey.verify_with_pairing_checker (vk : VerificationKey F)
    (s : Signature F) (c : Commitment F) (pp : PublicParams F) : Bool :=
  let vk_plus_cm_tilde := vk.vk_tilde + c.cm_tilde
  let sig_check := create_check
    [(s.sigma2, pp.g_tilde), (-s.sigma1, vk_plus_cm_tilde)]
  let cm_check := create_check
    [(c.cm, pp.g_tilde), (-pp.g, c.cm_tilde)]
  ((PairingCheck.new.merge sig_check).merge cm_check).verify

/-- Modelled from the spec: `SchnorrCommitment` (`src/schnorr.rs` is not
part of the source snapshot).  Per §4.3 the commit step yields the point
`T = Σ ρ_i·b_i` together with the blinding vector `ρ`; field names follow
the accesses in `proof.rs` and `identity_binding.rs`. -/
structure SchnorrCommitment (F : Type) where
  random_blindings : List F
  commited_blindings : F
  deriving DecidableEq

namespace SchnorrProtocol

/-- Modelled from the spec: `SchnorrProtocol::commit_with_prepared_blindings`
— per §4.3, `T = Σ ρ_i·b_i` with the caller-supplied blinding vector. -/
def commit_with_prepared_blindings (bases : List F) (blindings : List F) :
    SchnorrCommitment F :=
  { random_blindings := blindings
    commited_blindings := msm bases blindings }

/-- Modelled from the spec: `SchnorrProtocol::commit` — per §4.3 it samples
`ρ` and commits; the sampled vector is an explicit argument here. -/
def commit (bases : List F) (blindings : List F) : SchnorrCommitment F :=
  commit_with_prepared_blindings bases blindings

/-- Modelled from the spec: `SchnorrProtocol::prove` — per §4.3,
`s_i = ρ_i + c·x_i`. -/
def prove (st : SchnorrCommitment F) (exponents : List F) (c : F) :
    List F :=
  List.zipWith (fun rho x => rho + c * x) st.random_blindings exponents

/-- Modelled from the spec: `SchnorrProtocol::verify_schnorr` — per §4.3,
accept iff `Σ s_i·b_i = T + c·Y`. -/
def verify_schnorr (bases : List F) (Y : F) (T : F) (responses : List F)
    (c : F) : Bool :=
  decide (msm bases responses = T + c * Y)

end SchnorrProtocol

/-- `CommitmentProof` from `proof.rs`. -/
structure CommitmentProof (F : Type) where
  commitment : Commitment F
  schnorr_commitment : F
  bases : List F
  challenge : F
  responses : List F
  deriving DecidableEq

namespace CommitmentProof

/-- `CommitmentProof::prove`: bases are `pp.get_g1_bases`, exponents are
`messages ∥ (r)`; the Schnorr blinding vector and the random challenge are
explicit arguments. -/
def prove (pp : PublicParams F) (commitment : Commitment F)
    (messages : List F) (r : F) (blindings : List F) (challenge : F) :
    CommitmentProof F :=
  let bases := pp.get_g1_bases
  let exponents := messages ++ [r]
  let sc := SchnorrProtocol.commit bases blindings
  let responses := SchnorrProtocol.prove sc exponents challenge
  { commitment := commitment
    schnorr_commitment := sc.commited_blindings
    bases := bases
    challenge := challenge
    responses := responses }

/-- `CommitmentProof::verify`: the Schnorr check against the stored bases,
commitment and challenge. -/
def verify (p : CommitmentProof F) : Bool :=
  SchnorrProtocol.verify_schnorr p.bases p.commitment.cm
    p.schnorr_commitment p.responses p.challenge

end CommitmentProof

/-- `Error` from `error.rs` (the `SerializationError` payload is left
abstract as a unit). -/
inductive Error where
  | InvalidCommitment
  | MismatchedCommitmentLengths
  | InvalidProof
  | ProofVerificationFailed
  | InvalidSignature
  | SignatureVerificationFailed
  | InvalidCredentialState
  | MissingSignature
  | ProtocolAborted
  | SerializationError
  | Other (msg : String)
  deriving DecidableEq

/-- `CredentialState` from `credential.rs`. -/
inductive CredentialState where
  | Initialized
  | Committed
  | Signed
  | Randomized
  deriving DecidableEq

/-- `Credential` from `credential.rs`. -/
structure Credential (F : Type) where
  commitment : Commitment F
  messages : List F
  r : F
  signature : Option (Signature F)
  state : CredentialState
  deriving DecidableEq

/-- `ShowCredential` from `credential.rs`. -/
structure ShowCredential (F : Type) where
  randomized_signature : Signature F
  randomized_commitment : Commitment F
  proof : CommitmentProof F
  r_new : F
  deriving DecidableEq

namespace Credential

/-- `Credential::new`: commits to the messages and starts in state
`Committed` with no signature. -/
def new (ck : CommitmentKey F) (pp : PublicParams F) (messages : List F)
    (r : F) : Credential F :=
  { commitment := ck.commit pp messages r
    messages := messages
    r := r
    signature := none
    state := CredentialState.Committed }

/-- `Credential::add_signature`: stores the signature and moves to
`Signed` (the Rust method mutates in place; here it returns the updated
credential). -/
def add_signature (cred : Credential F) (s : Signature F) : Credential F :=
  { cred with signature := some s, state := CredentialState.Signed }

/-- `Credential::prove_commitment`. -/
def prove_commitment (cred : Credential F) (pp : PublicParams F)
    (blindings : List F) (challenge : F) : CommitmentProof F :=
  CommitmentProof.prove pp cred.commitment cred.messages cred.r
    blindings challenge

/-- `Credential::show`: panics (`none`) unless the state is `Signed` and a
signature is present; otherwise emits the randomized presentation.  The
Schnorr blindings and challenge of the embedded proof are explicit
arguments. -/
def «show» (cred : Credential F) (pp : PublicParams F)
    (delta_r delta_u : F) (blindings : List F) (challenge : F) :
    Option (ShowCredential F) :=
  if cred.state = CredentialState.Signed then
    match cred.signature with
    | some sig =>
        let new_r := cred.r + delta_r
        let randomized_commitment := cred.commitment.randomize pp delta_r
        some { randomized_signature := sig.randomize delta_r delta_u
               randomized_commitment := randomized_commitment
               proof := CommitmentProof.prove pp randomized_commitment
                 cred.messages new_r blindings challenge
               r_new := new_r }
    | none => none
  else
    none

/-- `Credential::verify`: false when unsigned, else the pairing-checker
verification. -/
def verify (cred : Credential F) (pp : PublicParams F)
    (vk : VerificationKey F) : Bool :=
  match cred.signature with
  | some sig => vk.verify_with_pairing_checker sig cred.commitment pp
  | none => false

end Credential

/-- `MimcAbc` protocol facade from `protocol.rs`. -/
structure MimcAbc (F : Type) where
  pp : PublicParams F
  ck : CommitmentKey F

namespace MimcAbc

/-- `MimcAbc::new`: the commitment key is copied out of `pp`. -/
def new (pp : PublicParams F) : MimcAbc F :=
  { pp := pp, ck := { ck := pp.ck, ck_tilde := pp.ck_tilde } }

/-- `MimcAbc::issue`: reject with `InvalidProof` when the opening proof
fails, otherwise sign the commitment carried inside the proof (the fresh
signing scalar `u` is an explicit argument). -/
def issue (P : MimcAbc F) (proof : CommitmentProof F) (sk : SecretKey F)
    (u : F) : Except Error (Signature F) :=
  if proof.verify then
    Except.ok (sk.sign proof.commitment P.pp u)
  else
    Except.error Error.InvalidProof

end MimcAbc

/-- `AggregatePresentation` from `multi_credential.rs`. -/
structure AggregatePresentation (F : Type) where
  randomized_signatures : List (Signature F)
  randomized_commitments : List (Commitment F)
  proofs : List (CommitmentProof F)

namespace AggregatePresentation

/-- `AggregatePresentation::new`: columnwise split of the presentations. -/
def new (presentations : List (ShowCredential F)) :
    AggregatePresentation F :=
  { randomized_signatures := presentations.map (fun p => p.randomized_signature)
    randomized_commitments := presentations.map (fun p => p.randomized_commitment)
    proofs := presentations.map (fun p => p.proof) }

/-- The signature loop of `verify_all`: the `i`-th signature is checked by
`VerificationKey::verify` against `randomized_commitments[i]`; an
out-of-range index and a failed internal assert both panic (`none`). -/
def verify_all_sigs (vk : VerificationKey F) (pp : PublicParams F)
    (cms : List (Commitment F)) : List (Signature F) → Nat → Option Bool
  | [], _ => some true
  | s :: rest, i =>
    match cms[i]? with
    | none => none
    | some c =>
      match vk.verify s c pp with
      | none => none
      | some b =>
        if b then verify_all_sigs vk pp cms rest (i + 1) else some false

/-- `AggregatePresentation::verify_all`: every opening proof individually,
then every signature through the panicking `VerificationKey::verify`. -/
def verify_all (ap : AggregatePresentation F) (pp : PublicParams F)
    (vk : VerificationKey F) : Option Bool :=
  if ap.proofs.all (fun p => p.verify) then
    verify_all_sigs vk pp ap.randomized_commitments
      ap.randomized_signatures 0
  else
    some false

/-- The two pairing checks `batch_verify` accumulates for one
signature/proof pair (the commitment is taken from the proof). -/
def batch_checks (pp : PublicParams F) (vk : VerificationKey F)
    (s : Signature F) (pr : CommitmentProof F) : PairingCheck F :=
  let vk_plus_cm_tilde := vk.vk_tilde + pr.commitment.cm_tilde
  let sig_check := create_check
    [(s.sigma2, pp.g_tilde), (-s.sigma1, vk_plus_cm_tilde)]
  let cm_check := create_check
    [(pr.commitment.cm, pp.g_tilde), (-pp.g, pr.commitment.cm_tilde)]
  sig_check.merge cm_check

/-- `AggregatePresentation::batch_verify`: every opening proof
individually, then one merged pairing check over all signature and
commitment-consistency equations. -/
def batch_verify (ap : AggregatePresentation F) (pp : PublicParams F)
    (vk : VerificationKey F) : Bool :=
  if ap.proofs.all (fun p => p.verify) then
    ((ap.randomized_signatures.zip ap.proofs).foldl
      (fun acc sp => acc.merge (batch_checks pp vk sp.1 sp.2))
      PairingCheck.new).verify
  else
    false

end AggregatePresentation

/-- `IdentityBindingProof` from `identity_binding.rs`. -/
structure IdentityBindingProof (F : Type) where
  commitments : List (Commitment F)
  schnorr_commitments : List (SchnorrCommitment F)
  challenge : F
  responses : List (List F)

namespace IdentityBindingProof

/-- `IdentityBindingProof::prove`: input validation (length agreement,
non-empty message vectors, equal user identifiers at index 0) and then one
Schnorr proof per commitment, sharing the blinding at index 0 and a single
challenge.  The sampled common blinding, the per-credential remaining
blindings and the challenge are explicit arguments. -/
def prove (commitments : List (Commitment F)) (messages : List (List F))
    (randomness : List F) (public_params : List (PublicParams F))
    (common_blinding : F) (other_blindings : List (List F))
    (challenge : F) : Except Error (IdentityBindingProof F) :=
  if commitments = [] ∨ commitments.length ≠ messages.length ∨
      commitments.length ≠ randomness.length ∨
      commitments.length ≠ public_params.length then
    Except.error (Error.Other "Mismatched input lengths")
  else if messages.any (fun msg => msg = []) then
    Except.error (Error.Other "Messages must have at least one element")
  else if messages.any (fun msg => msg.getD 0 0 ≠ (messages.headI).getD 0 0) then
    Except.error (Error.Other "User identifiers must be identical")
  else
    let schnorr_commitments :=
      (List.range commitments.length).map (fun i =>
        let bases := (public_params.getD i (PublicParams.new 0 0 [])).get_g1_bases
        let blindings := common_blinding :: other_blindings.getD i []
        SchnorrProtocol.commit_with_prepared_blindings bases blindings)
    let all_responses :=
      (List.range commitments.length).map (fun i =>
        let exponents := messages.getD i [] ++ [randomness.getD i 0]
        SchnorrProtocol.prove (schnorr_commitments.getD i
          (SchnorrProtocol.commit_with_prepared_blindings [] []))
          exponents challenge)
    Except.ok
      { commitments := commitments
        schnorr_commitments := schnorr_commitments
        challenge := challenge
        responses := all_responses }

/-- The index-0 linkage loop of `IdentityBindingProof::verify`: compare
`responses[j][0]` of each later credential with the first credential's;
indexing an empty response vector panics (`none`). -/
def heads_equal (first_response : F) : List (List F) → Option Bool
  | [] => some true
  | rj :: rest =>
    match rj[0]? with
    | none => none
    | some h =>
      if h = first_response then heads_equal first_response rest
      else some false

/-- The per-index Schnorr check of `IdentityBindingProof::verify`: bases
from `public_params[i]`, statement `commitments[i].cm`, Schnorr point
`schnorr_commitments[i].commited_blindings`, responses `responses[i]`,
shared challenge. -/
def schnorr_check (proof : IdentityBindingProof F)
    (public_params : List (PublicParams F)) (i : Nat) : Bool :=
  SchnorrProtocol.verify_schnorr
    ((public_params.getD i (PublicParams.new 0 0 [])).get_g1_bases)
    ((proof.commitments.getD i ⟨0, 0⟩).cm)
    ((proof.schnorr_commitments.getD i
      (SchnorrProtocol.commit_with_prepared_blindings [] [])).commited_blindings)
    (proof.responses.getD i [])
    proof.challenge

/-- `IdentityBindingProof::verify`: length agreement, then the per-index
Schnorr checks, then equality of all index-0 responses.  `none` models a
panic (indexing an empty response vector), `Except.error` the `Err` path. -/
def verify (proof : IdentityBindingProof F)
    (public_params : List (PublicParams F)) :
    Option (Except Error Bool) :=
  if proof.commitments = [] ∨
      proof.commitments.length ≠ proof.schnorr_commitments.length ∨
      proof.commitments.length ≠ proof.responses.length ∨
      proof.commitments.length ≠ public_params.length then
    some (Except.error (Error.Other "Mismatched proof component lengths"))
  else if (List.range proof.commitments.length).all
      (fun i => schnorr_check proof public_params i) then
    match (proof.responses.headI)[0]? with
    | none => none
    | some first_response =>
      (heads_equal first_response proof.responses.tail).map Except.ok
  else
    some (Except.ok false)

end IdentityBindingProof

/-- `VerKeyProof` from `verkey.rs`. -/
structure VerKeyProof (F : Type) where
  x_schnorr_com_g : F
  x_schnorr_com_g_tilde : F
  x_response : F
  t1 : List F
  t2 : List F
  responses : List F
  challenge : F
  deriving DecidableEq

namespace VerKeyProof

/-- The per-index loop of `VerKeyProof::verify`: for each `i < pp.n` fetch
`t1[i]`, `t2[i]`, `responses[i]` and `pp.ck_tilde[i]` (an out-of-range
index panics, `none`), then check `g̃·s_i = t2_i + c·ck̃_i` and
`e(t1_i, g̃) = e(g, t2_i)`. -/
def base_checks (pp : PublicParams F) (prf : VerKeyProof F) :
    List Nat → Option Bool
  | [] => some true
  | i :: rest =>
    match prf.t1[i]?, prf.t2[i]?, prf.responses[i]?, pp.ck_tilde[i]? with
    | some t1i, some t2i, some si, some cki =>
      if pp.g_tilde * si = t2i + cki * prf.challenge then
        if pairing t1i pp.g_tilde = pairing pp.g t2i then
          base_checks pp prf rest
        else some false
      else some false
    | _, _, _, _ => none

/-- `VerKeyProof::verify`: the `G2` Schnorr check on `x` is enforced with
`assert_eq!` (a failure panics, `none`); the pairing check on the two
Schnorr commitments, the length checks and the per-base checks return
`false` on failure. -/
def verify (prf : VerKeyProof F) (pp : PublicParams F) (vk_tilde : F) :
    Option Bool :=
  if vk_tilde * prf.challenge + prf.x_schnorr_com_g_tilde =
      pp.g_tilde * prf.x_response then
    if pairing pp.g prf.x_schnorr_com_g_tilde =
        pairing prf.x_schnorr_com_g pp.g_tilde then
      if prf.t1.length = pp.n ∧ prf.t2.length = pp.n ∧
          prf.responses.length = pp.n then
        base_checks pp prf (List.range pp.n)
      else some false
    else some false
  else
    none

end VerKeyProof

/-! ## Helper lemmas -/

theorem msm_map_mul (a : F) (ys : List F) :
    ∀ m : List F, msm (ys.map (fun y => a * y)) m = a * msm ys m := by
  induction ys with
  | nil => intro m; simp [msm]
  | cons y ys ih =>
    intro m
    cases m with
    | nil => simp [msm]
    | cons x xs =>
      simp only [List.map_cons, msm, List.zipWith_cons_cons, List.sum_cons]
      have := ih xs
      simp only [msm] at this
      rw [this]
      ring

theorem verify_eq_some_true_iff (vk : VerificationKey F) (s : Signature F)
    (c : Commitment F) (pp : PublicParams F) :
    vk.verify s c pp = some true ↔
      (pairing s.sigma2 pp.g_tilde =
          pairing s.sigma1 (vk.vk_tilde + c.cm_tilde) ∧
        pairing c.cm pp.g_tilde = pairing pp.g c.cm_tilde) := by
  unfold VerificationKey.verify
  split_ifs with h1 h2 <;> simp_all

/-! ## Claims -/

/-- **C10** — Commitment homomorphism: for every public parameters, message
vector and scalars `r`, `δ`, randomizing the commitment
`CommitmentKey.commit(pp, m, r)` by `δ` equals committing directly with the
shifted blinding `r + δ`, in both the `G1` and the `G2` component. -/
theorem commit_randomize_homomorphism (ckey : CommitmentKey F)
    (pp : PublicParams F) (m : List F) (r δ : F) :
    (ckey.commit pp m r).randomize pp δ = ckey.commit pp m (r + δ) := by
  simp only [CommitmentKey.commit, Commitment.randomize, Commitment.mk.injEq]
  constructor <;> ring

/-- **C8** — Commitment pairing consistency: for a well-formed
`PublicParams` (bases derived from the exponent vector exactly as
`PublicParams::new` builds them), every message vector of width `n` and
every blinding `r`, the commitment produced by `CommitmentKey.commit` with
the keys taken from `pp` satisfies `e(cm, g̃) = e(g, cm̃)`; moreover
`Commitment.randomize` preserves this invariant for any `δ`. -/
theorem commit_pairing_consistency (pp : PublicParams F) (m : List F)
    (r : F)
    (hck : pp.ck = pp.y_values.map (fun y => pp.g * y))
    (hckt : pp.ck_tilde = pp.y_values.map (fun y => pp.g_tilde * y))
    (hm : m.length = pp.n) :
    (pairing ((CommitmentKey.mk pp.ck pp.ck_tilde).commit pp m r).cm
        pp.g_tilde =
      pairing pp.g
        ((CommitmentKey.mk pp.ck pp.ck_tilde).commit pp m r).cm_tilde) ∧
    ∀ (c : Commitment F) (δ : F),
      pairing c.cm pp.g_tilde = pairing pp.g c.cm_tilde →
      pairing ((c.randomize pp δ).cm) pp.g_tilde =
        pairing pp.g ((c.randomize pp δ).cm_tilde) := by
  constructor
  · simp only [CommitmentKey.commit, pairing, hck, hckt, msm_map_mul]
    ring
  · intro c δ h
    simp only [Commitment.randomize, pairing] at h ⊢
    linear_combination h

/-- Witness for **C8** at a concrete input. -/
theorem commit_pairing_consistency_witness :
    let pp : PublicParams (ZMod 5) := PublicParams.new 2 3 [1, 4]
    pairing ((CommitmentKey.mk pp.ck pp.ck_tilde).commit pp [1, 2] 3).cm
        pp.g_tilde =
      pairing pp.g
        ((CommitmentKey.mk pp.ck pp.ck_tilde).commit pp [1, 2] 3).cm_tilde :=
  (commit_pairing_consistency (PublicParams.new 2 3 [1, 4]) [1, 2] 3
    (by decide) (by decide) (by decide)).1

/-- **C1** — Randomization soundness: whenever `VerificationKey::verify`
accepts `(σ, cm)` (which in particular enforces the `G2`-consistency of
`cm`), it also accepts the randomized pair
`(σ.randomize(δr, δu), cm.randomize(pp, δr))` under the same key, for all
scalars `δr`, `δu`. -/
theorem randomization_soundness (vk : VerificationKey F) (s : Signature F)
    (c : Commitment F) (pp : PublicParams F)
    (hv : vk.verify s c pp = some true) (δr δu : F) :
    vk.verify (s.randomize δr δu) (c.randomize pp δr) pp = some true := by
  rw [verify_eq_some_true_iff] at hv ⊢
  obtain ⟨h1, h2⟩ := hv
  simp only [pairing] at h1 h2
  constructor
  · simp only [Signature.randomize, Commitment.randomize, msm, pairing,
      List.zipWith_cons_cons, List.zipWith_nil_right, List.sum_cons,
      List.sum_nil]
    linear_combination δu * h1
  · simp only [Commitment.randomize, pairing]
    linear_combination h2

/-- Witness for **C1** at a concrete input. -/
theorem randomization_soundness_witness :
    (VerificationKey.mk (3 : ZMod 5)).verify
      ((Signature.mk 1 3).randomize 2 3)
      ((Commitment.mk 0 0).randomize ⟨0, 1, 1, [], [], []⟩ 2)
      ⟨0, 1, 1, [], [], []⟩ = some true :=
  randomization_soundness (VerificationKey.mk (3 : ZMod 5))
    (Signature.mk 1 3) (Commitment.mk 0 0) ⟨0, 1, 1, [], [], []⟩
    (by decide) 2 3

/-- **C2** — contrary to the claim, `VerificationKey::verify` never
returns `false`: each of the two pairing equations is enforced with an
`assert!`, so a failing first equation (left conjunct) and a failing second
equation (right conjunct) both panic instead of returning `false`. -/
theorem verify_panics_on_failing_pairing :
    (VerificationKey.mk (0 : ZMod 5)).verify (Signature.mk 0 1)
      (Commitment.mk 0 0) ⟨0, 1, 1, [], [], []⟩ = none ∧
    (VerificationKey.mk (0 : ZMod 5)).verify (Signature.mk 0 0)
      (Commitment.mk 1 0) ⟨0, 1, 1, [], [], []⟩ = none := by
  constructor <;> decide

/-- **C3** — `Credential::show` fails (panics, modelled as `none`) whenever
the credential is not in the `Signed` state or carries no signature; after
`add_signature` it always succeeds and returns a `ShowCredential`. -/
theorem show_requires_signed (cred : Credential F) (pp : PublicParams F)
    (δr δu : F) (bl : List F) (ch : F) :
    (cred.state ≠ CredentialState.Signed ∨ cred.signature = none →
      cred.«show» pp δr δu bl ch = none) ∧
    ∀ s : Signature F, ∃ sc : ShowCredential F,
      (cred.add_signature s).«show» pp δr δu bl ch = some sc := by
  constructor
  · intro h
    rcases h with h | h
    · rw [Credential.«show», if_neg h]
    · rw [Credential.«show»]
      split_ifs <;> simp [h]
  · intro s
    exact ⟨_, rfl⟩

/-- Witness for **C3** at a concrete input: a freshly created credential
(state `Committed`) cannot be shown, and becomes showable once a signature
is added. -/
theorem show_requires_signed_witness :
    (Credential.new (CommitmentKey.mk [1] [1])
        (⟨1, 1, 1, [1], [1], [1]⟩ : PublicParams (ZMod 5)) [1] 2).«show»
      ⟨1, 1, 1, [1], [1], [1]⟩ 1 1 [0, 0] 1 = none ∧
    ∃ sc, ((Credential.new (CommitmentKey.mk [1] [1])
        (⟨1, 1, 1, [1], [1], [1]⟩ : PublicParams (ZMod 5)) [1] 2).add_signature
        (Signature.mk 1 1)).«show»
      ⟨1, 1, 1, [1], [1], [1]⟩ 1 1 [0, 0] 1 = some sc := by
  constructor
  · exact (show_requires_signed _ _ _ _ _ _).1 (Or.inl (by decide))
  · exact (show_requires_signed _ _ _ _ _ _).2 (Signature.mk 1 1)

/-- **C4** — `MimcAbc::issue` returns `InvalidProof` exactly when the
opening proof fails verification, and otherwise returns `Ok` with the
signature `sk.sign` produces over the commitment carried in the proof. -/
theorem issue_rejects_iff_proof_invalid (P : MimcAbc F)
    (proof : CommitmentProof F) (sk : SecretKey F) (u : F) :
    (P.issue proof sk u = Except.error Error.InvalidProof ↔
      proof.verify = false) ∧
    (proof.verify = true →
      P.issue proof sk u = Except.ok (sk.sign proof.commitment P.pp u)) := by
  cases h : proof.verify <;> simp [MimcAbc.issue, h]

/-- Witness for **C4** at concrete inputs: a verifying proof is signed, a
failing proof is rejected with `InvalidProof`. -/
theorem issue_rejects_iff_proof_invalid_witness :
    ((MimcAbc.new (⟨1, 1, 1, [1], [1], [1]⟩ : PublicParams (ZMod 5))).issue
        (CommitmentProof.mk (Commitment.mk 0 0) 0 [] 0 []) (SecretKey.mk 2 2) 1 =
      Except.ok ((SecretKey.mk 2 2).sign (Commitment.mk 0 0)
        (MimcAbc.new (⟨1, 1, 1, [1], [1], [1]⟩ : PublicParams (ZMod 5))).pp 1)) ∧
    ((MimcAbc.new (⟨1, 1, 1, [1], [1], [1]⟩ : PublicParams (ZMod 5))).issue
        (CommitmentProof.mk (Commitment.mk 1 0) 0 [] 0 []) (SecretKey.mk 2 2) 1 =
      Except.error Error.InvalidProof ↔
      (CommitmentProof.mk (Commitment.mk (1 : ZMod 5) 0) 0 [] 0 []).verify = false) := by
  constructor
  · exact (issue_rejects_iff_proof_invalid _ _ _ _).2 (by decide)
  · exact (issue_rejects_iff_proof_invalid _ _ _ _).1

/-- **C9** — contrary to the claim, `VerKeyProof::verify` does not return
`false` on every failing check: the very first listed check
`c·vk̃ + T̃_x = s_x·g̃` is enforced with `assert_eq!` and panics on failure
(left conjunct), while a failing pairing check (middle conjunct) and a
failing per-base check (right conjunct) do return `false`. -/
theorem verkey_verify_asserts_on_bad_schnorr :
    (VerKeyProof.mk 0 0 0 [] [] [] 1).verify
      (⟨0, 1, 1, [], [], []⟩ : PublicParams (ZMod 5)) 1 = none ∧
    (VerKeyProof.mk 1 0 0 [] [] [] 1).verify
      (⟨0, 1, 1, [], [], []⟩ : PublicParams (ZMod 5)) 0 = some false ∧
    (VerKeyProof.mk 0 0 0 [1] [0] [1] 0).verify
      (⟨1, 1, 1, [1], [1], [1]⟩ : PublicParams (ZMod 5)) 0 = some false := by
  refine ⟨by decide, by decide, by decide⟩

/-- **C6** — `IdentityBindingProof::prove` returns an error (and no proof)
whenever its precondition is violated — empty or length-mismatched input
lists, an empty message vector, or unequal user identifiers at index 0 —
and, when the input is otherwise well-formed but two user identifiers
differ, the error is `Other("User identifiers must be identical")`. -/
theorem identity_binding_prove_precondition
    (commitments : List (Commitment F)) (messages : List (List F))
    (randomness : List F) (pps : List (PublicParams F))
    (cb : F) (obs : List (List F)) (ch : F) :
    ((commitments = [] ∨ commitments.length ≠ messages.length ∨
        commitments.length ≠ randomness.length ∨
        commitments.length ≠ pps.length ∨
        (∃ msg ∈ messages, msg = []) ∨
        (∃ msg ∈ messages, msg.getD 0 0 ≠ (messages.headI).getD 0 0)) →
      ∃ err, IdentityBindingProof.prove commitments messages randomness pps
        cb obs ch = Except.error err) ∧
    (commitments ≠ [] → commitments.length = messages.length →
      commitments.length = randomness.length →
      commitments.length = pps.length →
      (∀ msg ∈ messages, msg ≠ []) →
      (∃ m1 ∈ messages, ∃ m2 ∈ messages, m1.getD 0 0 ≠ m2.getD 0 0) →
      IdentityBindingProof.prove commitments messages randomness pps
        cb obs ch =
        Except.error (Error.Other "User identifiers must be identical")) := by
  constructor
  · intro hvio
    unfold IdentityBindingProof.prove
    split_ifs with h1 h2 h3
    · exact ⟨_, rfl⟩
    · exact ⟨_, rfl⟩
    · exact ⟨_, rfl⟩
    · exfalso
      rcases hvio with h | h | h | h | h | h
      · exact h1 (Or.inl h)
      · exact h1 (Or.inr (Or.inl h))
      · exact h1 (Or.inr (Or.inr (Or.inl h)))
      · exact h1 (Or.inr (Or.inr (Or.inr h)))
      · obtain ⟨msg, hmem, hnil⟩ := h
        exact h2 (by rw [List.any_eq_true]; exact ⟨msg, hmem, decide_eq_true hnil⟩)
      · obtain ⟨msg, hmem, hne⟩ := h
        exact h3 (by rw [List.any_eq_true]; exact ⟨msg, hmem, decide_eq_true hne⟩)
  · intro hne hl1 hl2 hl3 hmn hid
    unfold IdentityBindingProof.prove
    rw [if_neg, if_neg, if_pos]
    · rw [List.any_eq_true]
      obtain ⟨m1, hm1, m2, hm2, h12⟩ := hid
      by_cases hh : m1.getD 0 0 = (messages.headI).getD 0 0
      · exact ⟨m2, hm2, decide_eq_true (fun he => h12 (hh.trans he.symm))⟩
      · exact ⟨m1, hm1, decide_eq_true hh⟩
    · rw [List.any_eq_true]
      rintro ⟨msg, hmem, hnil⟩
      exact hmn msg hmem (of_decide_eq_true hnil)
    · push_neg
      exact ⟨hne, hl1, hl2, hl3⟩

/-- Witness for **C6** at concrete inputs: empty input lists are rejected,
and two credentials with user identifiers `1` and `2` are rejected with the
identifier-mismatch error. -/
theorem identity_binding_prove_precondition_witness :
    (∃ err, IdentityBindingProof.prove (F := ZMod 5) [] [] [] [] 0 [] 0 =
      Except.error err) ∧
    IdentityBindingProof.prove (F := ZMod 5)
      [Commitment.mk 0 0, Commitment.mk 0 0] [[1], [2]] [0, 0]
      [⟨1, 1, 1, [1], [1], [1]⟩, ⟨1, 1, 1, [1], [1], [1]⟩] 0 [[], []] 0 =
      Except.error (Error.Other "User identifiers must be identical") := by
  constructor
  · exact (identity_binding_prove_precondition [] [] [] [] 0 [] 0).1
      (Or.inl rfl)
  · exact (identity_binding_prove_precondition _ _ _ _ 0 _ 0).2
      (by decide) rfl rfl rfl (by decide)
      ⟨[1], by simp, [2], by simp, by decide⟩

theorem heads_equal_eq_some_true {fr : F} {l : List (List F)}
    (h : IdentityBindingProof.heads_equal fr l = some true) :
    ∀ rj ∈ l, rj.getD 0 0 = fr := by
  induction l with
  | nil => intro rj hrj; simp at hrj
  | cons a t ih =>
    intro rj hrj
    cases ha : a[0]? with
    | none => simp [IdentityBindingProof.heads_equal, ha] at h
    | some a0 =>
      simp only [IdentityBindingProof.heads_equal, ha] at h
      by_cases he : a0 = fr
      · rw [if_pos he] at h
        rcases List.mem_cons.mp hrj with rfl | hrj2
        · rw [List.getD_eq_getElem?_getD, ha, he]; rfl
        · exact ih h rj hrj2
      · rw [if_neg he] at h; simp at h

theorem heads_equal_eq_some_false {fr : F} {l : List (List F)}
    (hnn : ∀ rj ∈ l, rj ≠ [])
    (hex : ∃ rj ∈ l, rj.getD 0 0 ≠ fr) :
    IdentityBindingProof.heads_equal fr l = some false := by
  induction l with
  | nil => obtain ⟨rj, h, _⟩ := hex; simp at h
  | cons a t ih =>
    have hanil : a ≠ [] := hnn a (List.mem_cons_self a t)
    obtain ⟨a0, ha⟩ : ∃ x, a[0]? = some x := by
      cases a with
      | nil => exact absurd rfl hanil
      | cons x xs => exact ⟨x, by simp⟩
    simp only [IdentityBindingProof.heads_equal, ha]
    have ha0 : a.getD 0 0 = a0 := by
      rw [List.getD_eq_getElem?_getD, ha]; rfl
    by_cases he : a0 = fr
    · rw [if_pos he]
      apply ih (fun rj hrj => hnn rj (List.mem_cons_of_mem _ hrj))
      obtain ⟨rj, hrj, hd⟩ := hex
      rcases List.mem_cons.mp hrj with rfl | hrj2
      · exact absurd (ha0.trans he) hd
      · exact ⟨rj, hrj2, hd⟩
    · rw [if_neg he]

/-- **C7** — `IdentityBindingProof::verify`: an `Ok(true)` outcome forces
every per-credential Schnorr check to pass and all index-0 responses to
agree with the first credential; conversely (for well-formed component
lengths) a failing Schnorr check yields `Ok(false)`, and (when every
response vector is non-empty) passing Schnorr checks with a disagreeing
index-0 response also yield `Ok(false)`. -/
theorem identity_binding_verify_checks (proof : IdentityBindingProof F)
    (pps : List (PublicParams F)) :
    (proof.verify pps = some (Except.ok true) →
      ((List.range proof.commitments.length).all
          (fun i => IdentityBindingProof.schnorr_check proof pps i) = true ∧
        ∀ resp ∈ proof.responses,
          resp.getD 0 0 = (proof.responses.headI).getD 0 0)) ∧
    (proof.commitments ≠ [] →
      proof.commitments.length = proof.schnorr_commitments.length →
      proof.commitments.length = proof.responses.length →
      proof.commitments.length = pps.length →
      (∃ i < proof.commitments.length,
        IdentityBindingProof.schnorr_check proof pps i = false) →
      proof.verify pps = some (Except.ok false)) ∧
    (proof.commitments ≠ [] →
      proof.commitments.length = proof.schnorr_commitments.length →
      proof.commitments.length = proof.responses.length →
      proof.commitments.length = pps.length →
      (∀ resp ∈ proof.responses, resp ≠ []) →
      (List.range proof.commitments.length).all
        (fun i => IdentityBindingProof.schnorr_check proof pps i) = true →
      (∃ resp ∈ proof.responses,
        resp.getD 0 0 ≠ (proof.responses.headI).getD 0 0) →
      proof.verify pps = some (Except.ok false)) := by
  refine ⟨?_, ?_, ?_⟩
  · intro h
    unfold IdentityBindingProof.verify at h
    split_ifs at h with hLen hAll
    · simp at h
    · refine ⟨hAll, ?_⟩
      push_neg at hLen
      obtain ⟨hne, _, hl2, _⟩ := hLen
      have hrne : proof.responses ≠ [] := by
        intro h0
        rw [h0] at hl2
        exact hne (List.length_eq_zero.mp hl2)
      obtain ⟨r0, rest, hr⟩ := List.exists_cons_of_ne_nil hrne
      rw [hr] at h
      simp only [List.headI, List.tail_cons] at h
      cases hh : r0[0]? with
      | none => rw [hh] at h; exact absurd h (by simp)
      | some fr =>
        rw [hh] at h
        have h2 : Option.map Except.ok
            (IdentityBindingProof.heads_equal fr rest) =
            some (Except.ok true) := h
        obtain ⟨b, hb, hbe⟩ := Option.map_eq_some'.mp h2
        have hb' : b = true := by
          cases b with
          | false => exact absurd hbe (by simp)
          | true => rfl
        rw [hb'] at hb
        have htail := heads_equal_eq_some_true hb
        have hr0 : r0.getD 0 0 = fr := by
          rw [List.getD_eq_getElem?_getD, hh]; rfl
        intro resp hresp
        rw [hr] at hresp ⊢
        simp only [List.headI]
        rcases List.mem_cons.mp hresp with rfl | hresp2
        · rfl
        · rw [htail resp hresp2, hr0]
    · simp at h
  · intro hne hl1 hl2 hl3 hex
    unfold IdentityBindingProof.verify
    rw [if_neg (by push_neg; exact ⟨hne, hl1, hl2, hl3⟩), if_neg]
    intro hAll
    obtain ⟨i, hi, hf⟩ := hex
    have := List.all_eq_true.mp hAll i (List.mem_range.mpr hi)
    simp only [hf] at this
    exact absurd this (by simp)
  · intro hne hl1 hl2 hl3 hnn hAll hdiff
    unfold IdentityBindingProof.verify
    rw [if_neg (by push_neg; exact ⟨hne, hl1, hl2, hl3⟩), if_pos hAll]
    have hrne : proof.responses ≠ [] := by
      intro h0
      rw [h0] at hl2
      exact hne (List.length_eq_zero.mp hl2)
    obtain ⟨r0, rest, hr⟩ := List.exists_cons_of_ne_nil hrne
    rw [hr]
    simp only [List.headI, List.tail_cons]
    have h0ne : r0 ≠ [] := hnn r0 (hr ▸ List.mem_cons_self r0 rest)
    obtain ⟨a0, hh⟩ : ∃ x, r0[0]? = some x := by
      cases r0 with
      | nil => exact absurd rfl h0ne
      | cons x xs => exact ⟨x, by simp⟩
    rw [hh]
    have hr0 : r0.getD 0 0 = a0 := by
      rw [List.getD_eq_getElem?_getD, hh]; rfl
    have hfalse : IdentityBindingProof.heads_equal a0 rest = some false := by
      apply heads_equal_eq_some_false
      · intro rj hrj
        exact hnn rj (hr ▸ List.mem_cons_of_mem _ hrj)
      · obtain ⟨resp, hresp, hd⟩ := hdiff
        rw [hr] at hresp hd
        simp only [List.headI] at hd
        rcases List.mem_cons.mp hresp with rfl | hresp2
        · exact absurd rfl hd
        · exact ⟨resp, hresp2, fun he => hd (by rw [he, hr0])⟩
    show Option.map Except.ok (IdentityBindingProof.heads_equal a0 rest) =
      some (Except.ok false)
    rw [hfalse]
    rfl

/-- Witness for **C7** at a concrete input: two passing Schnorr checks with
disagreeing index-0 responses are rejected with `Ok(false)`. -/
theorem identity_binding_verify_checks_witness :
    IdentityBindingProof.verify
      (IdentityBindingProof.mk (F := ZMod 5)
        [Commitment.mk 0 0, Commitment.mk 0 0]
        [SchnorrCommitment.mk [] 1, SchnorrCommitment.mk [] 2]
        0 [[1, 0], [2, 0]])
      [⟨1, 1, 1, [1], [1], [1]⟩, ⟨1, 1, 1, [1], [1], [1]⟩] =
      some (Except.ok false) :=
  (identity_binding_verify_checks _ _).2.2 (by decide) rfl rfl rfl
    (by decide) (by decide)
    ⟨[2, 0], by simp, by decide⟩

theorem verify_all_sigs_eq_some_true (vk : VerificationKey F)
    (pp : PublicParams F) (cms : List (Commitment F)) :
    ∀ (sigs : List (Signature F)) (i : Nat),
      (∀ j, j < sigs.length → ∃ c, cms[i + j]? = some c ∧
        vk.verify (sigs.getD j (Signature.mk 0 0)) c pp = some true) →
      AggregatePresentation.verify_all_sigs vk pp cms sigs i = some true := by
  intro sigs
  induction sigs with
  | nil => intro i h; rfl
  | cons s rest ih =>
    intro i h
    obtain ⟨c, hc, hv⟩ := h 0 (by simp)
    rw [Nat.add_zero] at hc
    have hv2 : vk.verify s c pp = some true := by
      rw [List.getD_cons_zero] at hv
      exact hv
    simp only [AggregatePresentation.verify_all_sigs, hc, hv2, if_pos]
    apply ih
    intro j hj
    obtain ⟨c2, hc2, hv3⟩ := h (j + 1) (by simpa using Nat.succ_lt_succ hj)
    refine ⟨c2, ?_, ?_⟩
    · rw [← hc2]
      congr 1
      omega
    · rw [List.getD_cons_succ] at hv3
      exact hv3

theorem foldl_merge_spec {α : Type} (f : α → PairingCheck F) :
    ∀ (l : List α) (acc : PairingCheck F),
      ((l.foldl (fun a x => a.merge (f x)) acc).pairs.map
          (fun p => pairing p.1 p.2)).sum =
        (acc.pairs.map (fun p => pairing p.1 p.2)).sum +
          (l.map (fun x =>
            ((f x).pairs.map (fun p => pairing p.1 p.2)).sum)).sum ∧
      (l.foldl (fun a x => a.merge (f x)) acc).target =
        acc.target + (l.map (fun x => (f x).target)).sum := by
  intro l
  induction l with
  | nil => intro acc; simp
  | cons x xs ih =>
    intro acc
    obtain ⟨ih1, ih2⟩ := ih (acc.merge (f x))
    constructor
    · rw [List.foldl_cons, ih1]
      simp only [PairingCheck.merge, List.map_append, List.sum_append,
        List.map_cons, List.sum_cons]
      ring
    · rw [List.foldl_cons, ih2]
      simp only [PairingCheck.merge, List.map_cons, List.sum_cons]
      ring

/-- **C5 counterexample** — a two-credential aggregate presentation (honest
issuance over `ZMod 13`, then the two `σ2` components corrupted by `+5` and
`-5`) on which `verify_all` panics inside `VerificationKey::verify`
(modelled as `none`, in particular not the boolean `batch_verify` returns)
while the deterministic batch cancels the two corruptions and accepts. -/
theorem aggregate_equivalence_counterexample :
    (AggregatePresentation.mk (F := ZMod 13)
        [Signature.mk 1 8, Signature.mk 1 1]
        [Commitment.mk 0 0, Commitment.mk 3 3]
        [CommitmentProof.mk (Commitment.mk 0 0) 0 [2, 1] 1 [4, 5],
         CommitmentProof.mk (Commitment.mk 3 3) 0 [2, 1] 1 [1, 1]]).verify_all
      ⟨1, 1, 1, [2], [2], [2]⟩ (VerificationKey.mk 3) = none ∧
    (AggregatePresentation.mk (F := ZMod 13)
        [Signature.mk 1 8, Signature.mk 1 1]
        [Commitment.mk 0 0, Commitment.mk 3 3]
        [CommitmentProof.mk (Commitment.mk 0 0) 0 [2, 1] 1 [4, 5],
         CommitmentProof.mk (Commitment.mk 3 3) 0 [2, 1] 1 [1, 1]]).batch_verify
      ⟨1, 1, 1, [2], [2], [2]⟩ (VerificationKey.mk 3) = true := by
  constructor <;> decide

/-- **C5 (amended)** — the equivalence of `verify_all` and `batch_verify`
holds in the following restricted form (for presentations whose commitment
column matches the proofs' commitments, as `AggregatePresentation::new`
produces): if some opening proof fails, both return `false`; if all opening
proofs pass and every credential satisfies both individual pairing
equations, both accept.  It does not extend to corrupted signatures: there
`verify_all` panics inside `VerificationKey::verify` while the
deterministic (unweighted) batch may cancel corruptions across credentials
and still accept. -/
theorem aggregate_equivalence_amended (ap : AggregatePresentation F)
    (pp : PublicParams F) (vk : VerificationKey F)
    (hcm : ap.randomized_commitments = ap.proofs.map (fun p => p.commitment))
    (hlen : ap.randomized_signatures.length = ap.proofs.length) :
    ((∃ p ∈ ap.proofs, p.verify = false) →
      ap.verify_all pp vk = some false ∧ ap.batch_verify pp vk = false) ∧
    ((∀ p ∈ ap.proofs, p.verify = true) →
      (∀ j, j < ap.proofs.length →
        pairing (ap.randomized_signatures.getD j (Signature.mk 0 0)).sigma2
            pp.g_tilde =
          pairing (ap.randomized_signatures.getD j (Signature.mk 0 0)).sigma1
            (vk.vk_tilde + (ap.proofs.getD j
              (CommitmentProof.mk (Commitment.mk 0 0) 0 [] 0 [])).commitment.cm_tilde) ∧
        pairing (ap.proofs.getD j
            (CommitmentProof.mk (Commitment.mk 0 0) 0 [] 0 [])).commitment.cm
            pp.g_tilde =
          pairing pp.g (ap.proofs.getD j
            (CommitmentProof.mk (Commitment.mk 0 0) 0 [] 0 [])).commitment.cm_tilde) →
      ap.verify_all pp vk = some true ∧ ap.batch_verify pp vk = true) := by
  constructor
  · rintro ⟨p, hp, hpf⟩
    have hnall : ¬(ap.proofs.all (fun p => p.verify) = true) := by
      intro hAll
      have := List.all_eq_true.mp hAll p hp
      rw [hpf] at this
      exact absurd this (by simp)
    have hall : ap.proofs.all (fun p => p.verify) = false :=
      Bool.eq_false_iff.mpr hnall
    constructor
    · unfold AggregatePresentation.verify_all
      rw [if_neg hnall]
    · unfold AggregatePresentation.batch_verify
      rw [if_neg hnall]
  · intro hpf hEq
    have hall : ap.proofs.all (fun p => p.verify) = true :=
      List.all_eq_true.mpr hpf
    constructor
    · unfold AggregatePresentation.verify_all
      rw [if_pos hall]
      apply verify_all_sigs_eq_some_true
      intro j hj
      have hj2 : j < ap.proofs.length := hlen ▸ hj
      refine ⟨(ap.proofs.getD j
        (CommitmentProof.mk (Commitment.mk 0 0) 0 [] 0 [])).commitment, ?_, ?_⟩
      · rw [Nat.zero_add, hcm, List.getElem?_map,
          List.getElem?_eq_getElem hj2]
        rw [List.getD_eq_getElem?_getD, List.getElem?_eq_getElem hj2]
        rfl
      · rw [verify_eq_some_true_iff]
        exact hEq j hj2
    · unfold AggregatePresentation.batch_verify
      rw [if_pos hall]
      simp only [PairingCheck.verify, decide_eq_true_eq]
      obtain ⟨hs, ht⟩ := foldl_merge_spec
        (fun sp => AggregatePresentation.batch_checks pp vk sp.1 sp.2)
        (ap.randomized_signatures.zip ap.proofs) PairingCheck.new
      rw [hs, ht]
      have hnew1 : ((PairingCheck.new (F := F)).pairs.map
          (fun p => pairing p.1 p.2)).sum = 0 := by
        simp [PairingCheck.new]
      have hnew2 : (PairingCheck.new (F := F)).target = 0 := rfl
      rw [hnew1, hnew2]
      have hzero : ((ap.randomized_signatures.zip ap.proofs).map
          (fun sp => (((AggregatePresentation.batch_checks pp vk
            sp.1 sp.2).pairs.map (fun p => pairing p.1 p.2)).sum))).sum = 0 := by
        apply List.sum_eq_zero
        intro z hz
        rw [List.mem_map] at hz
        obtain ⟨sp, hsp, rfl⟩ := hz
        obtain ⟨i, hi, hieq⟩ := List.getElem_of_mem hsp
        have hzq : (ap.randomized_signatures.zip ap.proofs)[i]? = some sp := by
          rw [List.getElem?_eq_getElem hi, hieq]
        rw [List.getElem?_zip_eq_some] at hzq
        obtain ⟨h1, h2⟩ := hzq
        have hilt : i < ap.proofs.length :=
          (List.getElem?_eq_some.mp h2).1
        have hd1 : ap.randomized_signatures.getD i (Signature.mk 0 0) = sp.1 := by
          rw [List.getD_eq_getElem?_getD, h1]; rfl
        have hd2 : ap.proofs.getD i
            (CommitmentProof.mk (Commitment.mk 0 0) 0 [] 0 []) = sp.2 := by
          rw [List.getD_eq_getElem?_getD, h2]; rfl
        obtain ⟨he1, he2⟩ := hEq i hilt
        rw [hd1] at he1
        rw [hd2] at he1 he2
        simp only [pairing] at he1 he2
        simp only [AggregatePresentation.batch_checks, create_check,
          PairingCheck.merge, pairing, List.map_cons, List.map_nil,
          List.append_nil, List.sum_cons, List.sum_nil, List.cons_append,
          List.nil_append]
        linear_combination he1 + he2
      have htzero : ((ap.randomized_signatures.zip ap.proofs).map
          (fun sp => (AggregatePresentation.batch_checks pp vk
            sp.1 sp.2).target)).sum = 0 := by
        apply List.sum_eq_zero
        intro z hz
        rw [List.mem_map] at hz
        obtain ⟨sp, _, rfl⟩ := hz
        simp [AggregatePresentation.batch_checks, create_check,
          PairingCheck.merge]
      rw [hzero, htzero]

/-- Witness for **C5 (amended)** at a concrete input: an honest
one-credential presentation over `ZMod 13` on which both verifiers
accept. -/
theorem aggregate_equivalence_amended_witness :
    (AggregatePresentation.mk (F := ZMod 13)
        [Signature.mk 1 3]
        [Commitment.mk 0 0]
        [CommitmentProof.mk (Commitment.mk 0 0) 0 [2, 1] 1 [4, 5]]).verify_all
      ⟨1, 1, 1, [2], [2], [2]⟩ (VerificationKey.mk 3) = some true ∧
    (AggregatePresentation.mk (F := ZMod 13)
        [Signature.mk 1 3]
        [Commitment.mk 0 0]
        [CommitmentProof.mk (Commitment.mk 0 0) 0 [2, 1] 1 [4, 5]]).batch_verify
      ⟨1, 1, 1, [2], [2], [2]⟩ (VerificationKey.mk 3) = true :=
  (aggregate_equivalence_amended _ _ _ (by decide) (by decide)).2
    (by decide) (by decide)

end Mimc
